import Mathlib

/-!
Verification of the authgate device-authorization server against its
specification.  The Go sources are shallowly embedded: pure helpers become
Lean functions, the retry loop becomes explicit recursion over attempt
outcomes, stateful handlers become functions from an explicit state, and
machine durations are modelled as integers (seconds or nanoseconds as
noted).
-/

namespace AuthGate

/-! ## Retryable HTTP client (authgate-cli retry helper) -/

/-- An HTTP response reduced to the status code the retry logic inspects. -/
structure Response where
  statusCode : Nat
deriving DecidableEq, Repr

/-- The outcome of one `client.Do` call: an optional transport error
(kept as an opaque message) and an optional response. -/
structure Outcome where
  err : Option String
  resp : Option Response
deriving DecidableEq, Repr

/-- Retry configuration constant `maxRetries`. -/
def maxRetries : Nat := 3

/-- Retry configuration constant `initialRetryDelay`, in seconds. -/
def initialRetryDelay : Nat := 1

/-- Retry configuration constant `maxRetryDelay`, in seconds. -/
def maxRetryDelay : Nat := 10

/-- Retry configuration constant `retryDelayMultiple` (exact on the
powers of two the loop produces, so modelled as a natural). -/
def retryDelayMultiple : Nat := 2

/-- Embedding of `isRetryableError`: a non-nil error is retryable; with a
nil error, a nil response is not retryable and otherwise the status code
decides (5xx or 429). -/
def isRetryableError (err : Option String) (resp : Option Response) : Bool :=
  match err with
  | some _ => true
  | none =>
    match resp with
    | none => false
    | some r => decide (500 ≤ r.statusCode) || decide (r.statusCode = 429)

/-- The delay update performed after each backoff wait:
`delay = delay*2; if delay > maxRetryDelay { delay = maxRetryDelay }`. -/
def nextDelay (delay : Nat) : Nat :=
  let d := delay * retryDelayMultiple
  if d > maxRetryDelay then maxRetryDelay else d

/-- The value returned by `retryableHTTPRequest`. -/
inductive RetryResult where
  /-- Early or final `return resp, lastErr` with a non-retryable outcome,
  or the post-loop `return resp, lastErr` when `lastErr` is nil. -/
  | returned (resp : Option Response) (err : Option String)
  /-- `ctx.Done` fired before a retry while `lastErr != nil`:
  `context cancelled after %d attempts: %w`. -/
  | cancelledAfter (attempts : Nat) (err : String)
  /-- `ctx.Done` fired before a retry while `lastErr == nil`: `ctx.Err()`. -/
  | cancelledCtxErr
  /-- Post-loop `request failed after %d retries: %w` with `lastErr != nil`. -/
  | failedAfterRetries (err : String)
deriving DecidableEq, Repr

/-- An execution trace of `retryableHTTPRequest`: the returned value, the
backoff waits performed (in seconds, in order) and the number of
`client.Do` calls made. -/
structure RetryTrace where
  result : RetryResult
  waits : List Nat
  attemptsMade : Nat
deriving DecidableEq, Repr

/-- The `for attempt := 0; attempt <= maxRetries; attempt++` loop of
`retryableHTTPRequest`.  `attempts i` is the outcome of the i-th
`client.Do` call; `ctxDone i` tells whether the enclosing context is
cancelled at the pre-retry `select` before attempt `i`.  `fuel` counts the
loop iterations left (`maxRetries + 1 - attempt`). -/
def retryLoop (attempts : Nat → Outcome) (ctxDone : Nat → Bool) :
    Nat → Nat → Nat → Option String → Option Response → List Nat → Nat → RetryTrace
  | 0, _, _, lastErr, lastResp, waits, made =>
    { result :=
        match lastErr with
        | some e => .failedAfterRetries e
        | none => .returned lastResp none
      waits := waits, attemptsMade := made }
  | fuel + 1, attempt, delay, lastErr, lastResp, waits, made =>
    if 0 < attempt ∧ ctxDone attempt then
      { result :=
          match lastErr with
          | some e => .cancelledAfter attempt e
          | none => .cancelledCtxErr
        waits := waits, attemptsMade := made }
    else
      let waits1 := if 0 < attempt then waits ++ [delay] else waits
      let delay1 := if 0 < attempt then nextDelay delay else delay
      let o := attempts attempt
      if isRetryableError o.err o.resp then
        retryLoop attempts ctxDone fuel (attempt + 1) delay1 o.err o.resp waits1 (made + 1)
      else
        { result := .returned o.resp o.err, waits := waits1, attemptsMade := made + 1 }

/-- Embedding of `retryableHTTPRequest`, parameterised by the outcome of
each attempt and by context cancellation. -/
def retryableHTTPRequest (attempts : Nat → Outcome) (ctxDone : Nat → Bool) : RetryTrace :=
  retryLoop attempts ctxDone (maxRetries + 1) 0 initialRetryDelay none none [] 0

/-! ## Session idle-timeout middleware -/

/-- The session values the `SessionIdleTimeout` middleware reads and
writes: `user_id` and `last_activity` (unix seconds). -/
structure Session where
  userID : Option String
  lastActivity : Option Int
deriving DecidableEq, Repr

/-- The observable effect of `SessionIdleTimeout` on one request. -/
inductive IdleOutcome where
  /-- `c.Next()` was reached; the middleware left the session in the given
  state. -/
  | proceed (s : Session)
  /-- The session was cleared and the request redirected to
  `/login?redirect=...&error=session_timeout`. -/
  | redirectTimeout (cleared : Session)
deriving DecidableEq, Repr

/-- Embedding of the `SessionIdleTimeout` middleware body, with the
current unix time `now` passed explicitly: a non-positive timeout skips
the check; an authenticated session idle strictly longer than the timeout
is cleared and redirected; otherwise `last_activity` is refreshed. -/
def SessionIdleTimeout (idleTimeoutSeconds : Int) (now : Int) (s : Session) : IdleOutcome :=
  if idleTimeoutSeconds ≤ 0 then .proceed s
  else
    match s.userID with
    | none => .proceed s
    | some _ =>
      match s.lastActivity with
      | some lastActivityTime =>
        if now - lastActivityTime > idleTimeoutSeconds then
          .redirectTimeout ⟨none, none⟩
        else
          .proceed { s with lastActivity := some now }
      | none => .proceed { s with lastActivity := some now }

/-! ## Token session handlers (ownership) -/

/-- An access-token record as the token service exposes it to the session
handlers: its id, its owner, and its revocation/disable state. -/
structure AccessToken where
  id : String
  userID : String
  revokedAt : Option Int
  disabled : Bool
deriving DecidableEq, Repr

/-- Modelled from the spec: `TokenService.GetUserTokens` lists the tokens
owned by the given user (§4.G lists by owner); the service body is not
under src/. -/
def GetUserTokens (db : List AccessToken) (userID : String) : List AccessToken :=
  db.filter (fun t => t.userID == userID)

/-- Modelled from the spec: `TokenService.RevokeTokenByID` marks the token
with the given id revoked (§4.A op 3); the service body is not under
src/. -/
def RevokeTokenByID (now : Int) (db : List AccessToken) (tokenID : String) :
    List AccessToken :=
  db.map (fun t => if t.id == tokenID then { t with revokedAt := some now } else t)

/-- Modelled from the spec: `TokenService.DisableToken` sets the disabled
flag of the token with the given id; the service body is not under src/. -/
def DisableToken (db : List AccessToken) (tokenID : String) : List AccessToken :=
  db.map (fun t => if t.id == tokenID then { t with disabled := true } else t)

/-- Modelled from the spec: `TokenService.EnableToken` clears the disabled
flag of the token with the given id; the service body is not under src/. -/
def EnableToken (db : List AccessToken) (tokenID : String) : List AccessToken :=
  db.map (fun t => if t.id == tokenID then { t with disabled := false } else t)

/-- The HTTP-level outcome a session handler renders. -/
inductive HandlerStatus where
  | unauthorized
  | badRequest
  | forbidden
  | redirectToSessions
deriving DecidableEq, Repr

/-- Result of `validateTokenOwnership`: either a rendered error page
(`valid = false` in the source) or the validated token id. -/
inductive OwnershipCheck where
  | failed (status : HandlerStatus)
  | ok (tokenID : String)
deriving DecidableEq, Repr

/-- Embedding of `validateTokenOwnership`: requires an authenticated user
id in the request context and a non-empty `id` route parameter, then
accepts exactly when one of the caller's own tokens has that id. -/
def validateTokenOwnership (db : List AccessToken) (ctxUserID : Option String)
    (idParam : String) : OwnershipCheck :=
  match ctxUserID with
  | none => .failed .unauthorized
  | some userID =>
    if idParam = "" then .failed .badRequest
    else
      let tokens := GetUserTokens db userID
      if tokens.any (fun t => t.id == idParam) then .ok idParam
      else .failed .forbidden

/-- Embedding of `RevokeSession`: validate ownership, then revoke and
redirect to the sessions page. -/
def RevokeSession (now : Int) (db : List AccessToken) (ctxUserID : Option String)
    (idParam : String) : HandlerStatus × List AccessToken :=
  match validateTokenOwnership db ctxUserID idParam with
  | .failed status => (status, db)
  | .ok tokenID => (.redirectToSessions, RevokeTokenByID now db tokenID)

/-- Embedding of `DisableSession`: validate ownership, then disable. -/
def DisableSession (db : List AccessToken) (ctxUserID : Option String)
    (idParam : String) : HandlerStatus × List AccessToken :=
  match validateTokenOwnership db ctxUserID idParam with
  | .failed status => (status, db)
  | .ok tokenID => (.redirectToSessions, DisableToken db tokenID)

/-- Embedding of `EnableSession`: validate ownership, then enable. -/
def EnableSession (db : List AccessToken) (ctxUserID : Option String)
    (idParam : String) : HandlerStatus × List AccessToken :=
  match validateTokenOwnership db ctxUserID idParam with
  | .failed status => (status, db)
  | .ok tokenID => (.redirectToSessions, EnableToken db tokenID)

/-! ## Configuration (`config` package) -/

/-- One second of Go `time.Duration`, in nanoseconds. -/
def Second : Int := 1000000000

/-- Go `time.Minute` in nanoseconds. -/
def Minute : Int := 60 * Second

/-- Go `time.Hour` in nanoseconds. -/
def Hour : Int := 60 * Minute

/-- The configuration record built by `config.Load`; duration fields are
in nanoseconds. -/
structure Config where
  ServerAddr : String
  BaseURL : String
  JWTSecret : String
  JWTExpiration : Int
  SessionSecret : String
  DeviceCodeExpiration : Int
  PollingInterval : Int
  DatabasePath : String
  AuthMode : String
  HTTPAPIURL : String
  HTTPAPITimeout : Int
  HTTPAPIInsecureSkipVerify : Bool
deriving Repr

/-- Embedding of `getEnv`: a non-empty environment value wins, otherwise
the default; `env` models `os.Getenv`, where the empty string means
unset. -/
def getEnv (env : String → String) (key defaultValue : String) : String :=
  if env key ≠ "" then env key else defaultValue

/-- Embedding of `getEnvBool`: a non-empty value yields true exactly for
the strings "true" and "1"; an empty value yields the default. -/
def getEnvBool (env : String → String) (key : String) (defaultValue : Bool) : Bool :=
  if env key ≠ "" then (env key == "true") || (env key == "1") else defaultValue

/-- Embedding of `getEnvDuration`; `parseDuration` abstracts the Go
standard library's `time.ParseDuration` (`none` models a parse error). -/
def getEnvDuration (parseDuration : String → Option Int) (env : String → String)
    (key : String) (defaultValue : Int) : Int :=
  if env key ≠ "" then
    match parseDuration (env key) with
    | some d => d
    | none => defaultValue
  else defaultValue

/-- Embedding of `config.Load` (the optional `.env` file loading is folded
into `env`). -/
def Load (parseDuration : String → Option Int) (env : String → String) : Config :=
  { ServerAddr := getEnv env "SERVER_ADDR" ":8080"
    BaseURL := getEnv env "BASE_URL" "http://localhost:8080"
    JWTSecret := getEnv env "JWT_SECRET" "your-256-bit-secret-change-in-production"
    JWTExpiration := Hour
    SessionSecret := getEnv env "SESSION_SECRET" "session-secret-change-in-production"
    DeviceCodeExpiration := 30 * Minute
    PollingInterval := 5
    DatabasePath := getEnv env "DATABASE_PATH" "oauth.db"
    AuthMode := getEnv env "AUTH_MODE" "local"
    HTTPAPIURL := getEnv env "HTTP_API_URL" ""
    HTTPAPITimeout := getEnvDuration parseDuration env "HTTP_API_TIMEOUT" (10 * Second)
    HTTPAPIInsecureSkipVerify := getEnvBool env "HTTP_API_INSECURE_SKIP_VERIFY" false }

/-! ## Device-code grant state machine -/

/-- Device-code lifecycle status. -/
inductive DeviceStatus where
  | pending
  | authorized
  | denied
  | expired
  | consumed
deriving DecidableEq, Repr

/-- The persisted part of a device-code row that issuance and exchange
manipulate: status and expiry instant. -/
structure DeviceCodeRow where
  status : DeviceStatus
  expiresAt : Int
deriving DecidableEq, Repr

/-- The issuance response fields the claims constrain. -/
structure IssueResponse where
  expiresIn : Int
  interval : Int
deriving DecidableEq, Repr

/-- Modelled from the spec: device-code issuance (§4.E) persists the new
row with status pending and `expires_at = now + T_expire`, and returns
`expires_in = T_expire` and the configured polling interval; the engine
itself is not under src/. -/
def issueDeviceCode (cfg : Config) (now : Int) : DeviceCodeRow × IssueResponse :=
  (⟨.pending, now + cfg.DeviceCodeExpiration⟩,
   ⟨cfg.DeviceCodeExpiration, cfg.PollingInterval⟩)

/-- Result of one exchange call in a race on the same device code. -/
inductive ExchangeResult where
  | token
  | invalidGrant
deriving DecidableEq, Repr

/-- Modelled from the spec: the persistence port's atomic
consume-device-code compare-and-set (§4.A op 2): from status authorized
and not expired the row becomes consumed and the call succeeds; under any
other current state the transaction aborts and the row is unchanged.  The
port is not under src/. -/
def consumeDeviceCode (now : Int) (row : DeviceCodeRow) : Bool × DeviceCodeRow :=
  if row.status = .authorized ∧ now < row.expiresAt then
    (true, { row with status := .consumed })
  else (false, row)

/-- Modelled from the spec: the decisive step of each concurrent
`exchange` call is the atomic consume CAS (§4.E, §5); a successful CAS
yields the token and a lost CAS yields invalid_grant.  A concurrent
execution of N calls is any serialization of their atomic steps, given
here as the list of each call's observation time. -/
def runExchanges (row : DeviceCodeRow) : List Int → List ExchangeResult × DeviceCodeRow
  | [] => ([], row)
  | now :: rest =>
    let step := consumeDeviceCode now row
    let others := runExchanges step.2 rest
    ((if step.1 then .token else .invalidGrant) :: others.1, others.2)

/-! ## Pagination parameters (`store` package) -/

/-- Validated pagination parameters. -/
structure PaginationParams where
  Page : Int
  PageSize : Int
  Search : String
deriving DecidableEq, Repr

/-- The fallback page size. -/
def defaultPageSize : Int := 10

/-- The page-size cap. -/
def maxPageSize : Int := 50

/-- Modelled from the spec: `store.NewPaginationParams` (§4.A: page ≥ 1,
page_size ∈ [1,50], default 10 — a page below 1 becomes 1, a page size
below 1 becomes the default, one above 50 is capped); only its tests are
under src/. -/
def NewPaginationParams (page pageSize : Int) (search : String) : PaginationParams :=
  { Page := if page < 1 then 1 else page
    PageSize :=
      if pageSize < 1 then defaultPageSize
      else if pageSize > maxPageSize then maxPageSize
      else pageSize
    Search := search }

/-! ## Fixed-window rate limiter -/

/-- A fixed-window rate-limit counter: hits so far and the window start
(unix seconds). -/
structure RateEntry where
  count : Nat
  windowStart : Int
deriving DecidableEq, Repr

/-- The rate-limit window length, in seconds. -/
def rateWindowSeconds : Int := 60

/-- The decision the limiter makes for one request. -/
inductive RateDecision where
  | allowed
  | rejected (httpStatus : Nat) (errorCode : String)
deriving DecidableEq, Repr

/-- Modelled from the spec: one request through the in-process
fixed-window rate limiter (§4.D): the counter for the client IP is reset
when its window has ended, incremented, and the request is rejected with
HTTP 429 and error rate_limit_exceeded when the count exceeds the
per-minute budget; the middleware implementation is not under src/ (only
its tests and docs are). -/
def rateLimitStep (budget : Nat) (now : Int) (st : String → Option RateEntry)
    (ip : String) : RateDecision × (String → Option RateEntry) :=
  let current : RateEntry :=
    match st ip with
    | some e => if now - e.windowStart < rateWindowSeconds then e else ⟨0, now⟩
    | none => ⟨0, now⟩
  let bumped : RateEntry := ⟨current.count + 1, current.windowStart⟩
  (if budget < bumped.count then .rejected 429 "rate_limit_exceeded" else .allowed,
   fun k => if k = ip then some bumped else st k)

/-- Runs a sequence of requests (client ip, arrival time) through the
limiter, collecting the decisions in order. -/
def runRateLimiter (budget : Nat) (st : String → Option RateEntry) :
    List (String × Int) → List RateDecision × (String → Option RateEntry)
  | [] => ([], st)
  | (ip, now) :: rest =>
    let step := rateLimitStep budget now st ip
    let others := runRateLimiter budget step.2 rest
    (step.1 :: others.1, others.2)

/-- The limiter state with no counters. -/
def emptyRateState : String → Option RateEntry := fun _ => none

/-! ## Theorems -/

/-- C2: `isRetryableError` returns true exactly when the error is non-nil
(a transport error) or the response is non-nil with a 5xx or 429 status
code; in particular it is false on every 4xx other than 429, and false
when both the error and the response are nil. -/
theorem isRetryableError_characterisation :
    (∀ (err : Option String) (resp : Option Response),
      isRetryableError err resp = true ↔
        err ≠ none ∨ ∃ r, resp = some r ∧ (500 ≤ r.statusCode ∨ r.statusCode = 429)) ∧
    (∀ r : Response, 400 ≤ r.statusCode → r.statusCode < 500 → r.statusCode ≠ 429 →
      isRetryableError none (some r) = false) ∧
    isRetryableError none none = false := by
  refine ⟨?_, ?_, rfl⟩
  · intro err resp
    cases err with
    | some e => simp [isRetryableError]
    | none =>
      cases resp with
      | none => simp [isRetryableError]
      | some r => simp [isRetryableError]
  · intro r h1 h2 h3
    simp only [isRetryableError, Bool.or_eq_false_iff, decide_eq_false_iff_not]
    omega

/-- Witness for C2: a 404 response with no transport error is not
retryable. -/
theorem isRetryableError_characterisation_witness :
    isRetryableError none (some ⟨404⟩) = false :=
  isRetryableError_characterisation.2.1 ⟨404⟩ (by decide) (by decide) (by decide)

/-- C3: with the enclosing context never cancelled, `retryableHTTPRequest`
waits one of [], [1], [1,2], [1,2,4] seconds — a non-decreasing sequence
bounded by `maxRetryDelay` = 10 s — and makes at most 4 attempts; when
every attempt is retryable it makes exactly 4 attempts (3 retries) with
waits 1 s, 2 s, 4 s; when the first attempt is non-retryable it makes a
single attempt, waits not at all, and returns that attempt's outcome. -/
theorem retryableHTTPRequest_retry_contract
    (attempts : Nat → Outcome) (ctxDone : Nat → Bool)
    (hc : ∀ i, ctxDone i = false) :
    ((retryableHTTPRequest attempts ctxDone).waits = [] ∨
     (retryableHTTPRequest attempts ctxDone).waits = [1] ∨
     (retryableHTTPRequest attempts ctxDone).waits = [1, 2] ∨
     (retryableHTTPRequest attempts ctxDone).waits = [1, 2, 4]) ∧
    (retryableHTTPRequest attempts ctxDone).attemptsMade ≤ maxRetries + 1 ∧
    List.Sorted (· ≤ ·) (retryableHTTPRequest attempts ctxDone).waits ∧
    (∀ w ∈ (retryableHTTPRequest attempts ctxDone).waits, w ≤ maxRetryDelay) ∧
    ((∀ i, i ≤ maxRetries → isRetryableError (attempts i).err (attempts i).resp = true) →
      (retryableHTTPRequest attempts ctxDone).attemptsMade = maxRetries + 1 ∧
      (retryableHTTPRequest attempts ctxDone).waits = [1, 2, 4]) ∧
    (isRetryableError (attempts 0).err (attempts 0).resp = false →
      (retryableHTTPRequest attempts ctxDone).attemptsMade = 1 ∧
      (retryableHTTPRequest attempts ctxDone).waits = [] ∧
      (retryableHTTPRequest attempts ctxDone).result =
        .returned (attempts 0).resp (attempts 0).err) := by
  cases h0 : isRetryableError (attempts 0).err (attempts 0).resp with
  | false =>
    have ht : retryableHTTPRequest attempts ctxDone =
        ⟨.returned (attempts 0).resp (attempts 0).err, [], 1⟩ := by
      simp [retryableHTTPRequest, retryLoop, h0, hc]
    rw [ht]
    refine ⟨Or.inl rfl, by simp [maxRetries], by simp, by simp [maxRetryDelay],
      ?_, fun _ => ⟨rfl, rfl, rfl⟩⟩
    intro hall
    have h := hall 0 (by decide)
    rw [h] at h0
    exact Bool.noConfusion h0
  | true =>
    cases h1 : isRetryableError (attempts 1).err (attempts 1).resp with
    | false =>
      have ht : retryableHTTPRequest attempts ctxDone =
          ⟨.returned (attempts 1).resp (attempts 1).err, [1], 2⟩ := by
        simp [retryableHTTPRequest, retryLoop, h0, h1, hc, nextDelay,
          initialRetryDelay, maxRetryDelay, retryDelayMultiple]
      rw [ht]
      refine ⟨Or.inr (Or.inl rfl), by simp [maxRetries], by simp,
        by simp [maxRetryDelay], ?_, fun hf => Bool.noConfusion hf⟩
      intro hall
      have h := hall 1 (by decide)
      rw [h] at h1
      exact Bool.noConfusion h1
    | true =>
      cases h2 : isRetryableError (attempts 2).err (attempts 2).resp with
      | false =>
        have ht : retryableHTTPRequest attempts ctxDone =
            ⟨.returned (attempts 2).resp (attempts 2).err, [1, 2], 3⟩ := by
          simp [retryableHTTPRequest, retryLoop, h0, h1, h2, hc, nextDelay,
            initialRetryDelay, maxRetryDelay, retryDelayMultiple]
        rw [ht]
        refine ⟨Or.inr (Or.inr (Or.inl rfl)), by simp [maxRetries],
          by simp [List.sorted_cons], by simp [maxRetryDelay], ?_,
          fun hf => Bool.noConfusion hf⟩
        intro hall
        have h := hall 2 (by decide)
        rw [h] at h2
        exact Bool.noConfusion h2
      | true =>
        cases h3 : isRetryableError (attempts 3).err (attempts 3).resp with
        | false =>
          have ht : retryableHTTPRequest attempts ctxDone =
              ⟨.returned (attempts 3).resp (attempts 3).err, [1, 2, 4], 4⟩ := by
            simp [retryableHTTPRequest, retryLoop, h0, h1, h2, h3, hc, nextDelay,
              initialRetryDelay, maxRetryDelay, retryDelayMultiple]
          rw [ht]
          refine ⟨Or.inr (Or.inr (Or.inr rfl)), by simp [maxRetries],
            by simp [List.sorted_cons], by simp [maxRetryDelay], ?_,
            fun hf => Bool.noConfusion hf⟩
          intro hall
          have h := hall 3 (by decide)
          rw [h] at h3
          exact Bool.noConfusion h3
        | true =>
          have hw : (retryableHTTPRequest attempts ctxDone).waits = [1, 2, 4] := by
            simp [retryableHTTPRequest, retryLoop, h0, h1, h2, h3, hc, nextDelay,
              initialRetryDelay, maxRetryDelay, retryDelayMultiple]
          have ha : (retryableHTTPRequest attempts ctxDone).attemptsMade = 4 := by
            simp [retryableHTTPRequest, retryLoop, h0, h1, h2, h3, hc, nextDelay,
              initialRetryDelay, maxRetryDelay, retryDelayMultiple]
          rw [hw, ha]
          exact ⟨by decide, by decide, by decide, by decide,
            fun _ => ⟨by decide, rfl⟩, fun hf => Bool.noConfusion hf⟩

/-- Witness for C3: a server that always answers 500 drives the client
through all 3 retries with waits 1 s, 2 s, 4 s. -/
theorem retryableHTTPRequest_retry_contract_witness :
    (retryableHTTPRequest (fun _ => ⟨none, some ⟨500⟩⟩) (fun _ => false)).attemptsMade =
      maxRetries + 1 ∧
    (retryableHTTPRequest (fun _ => ⟨none, some ⟨500⟩⟩) (fun _ => false)).waits = [1, 2, 4] :=
  (retryableHTTPRequest_retry_contract (fun _ => ⟨none, some ⟨500⟩⟩) (fun _ => false)
    (fun _ => rfl)).2.2.2.2.1 (fun _ _ => by decide)

/-- C4: when the context is cancelled at the pre-retry wait before attempt
`k` (every earlier attempt having been retryable and uncancelled), the
remaining retries are preempted — exactly `k` attempts are made — and,
when the last completed attempt produced an underlying error, the reported
result wraps that error in `context cancelled after k attempts`. -/
theorem retryableHTTPRequest_cancellation
    (attempts : Nat → Outcome) (ctxDone : Nat → Bool) (k : Nat)
    (hk1 : 1 ≤ k) (hk2 : k ≤ maxRetries)
    (hbefore : ∀ i, i < k → ctxDone i = false)
    (hdone : ctxDone k = true)
    (hretry : ∀ i, i < k → isRetryableError (attempts i).err (attempts i).resp = true) :
    (retryableHTTPRequest attempts ctxDone).attemptsMade = k ∧
    ∀ e, (attempts (k - 1)).err = some e →
      (retryableHTTPRequest attempts ctxDone).result = .cancelledAfter k e := by
  have hk3 : k ≤ 3 := by simpa [maxRetries] using hk2
  interval_cases k
  · have hr0 := hretry 0 (by decide)
    have ht : retryableHTTPRequest attempts ctxDone =
        ⟨match (attempts 0).err with
          | some e => .cancelledAfter 1 e
          | none => .cancelledCtxErr, [], 1⟩ := by
      simp [retryableHTTPRequest, retryLoop, hr0, hdone]
    rw [ht]
    exact ⟨rfl, fun e he => by simp [he]⟩
  · have hr0 := hretry 0 (by decide)
    have hr1 := hretry 1 (by decide)
    have hb1 := hbefore 1 (by decide)
    have ht : retryableHTTPRequest attempts ctxDone =
        ⟨match (attempts 1).err with
          | some e => .cancelledAfter 2 e
          | none => .cancelledCtxErr, [1], 2⟩ := by
      simp [retryableHTTPRequest, retryLoop, hr0, hr1, hb1, hdone, nextDelay,
        initialRetryDelay, maxRetryDelay, retryDelayMultiple]
    rw [ht]
    exact ⟨rfl, fun e he => by simp [he]⟩
  · have hr0 := hretry 0 (by decide)
    have hr1 := hretry 1 (by decide)
    have hr2 := hretry 2 (by decide)
    have hb1 := hbefore 1 (by decide)
    have hb2 := hbefore 2 (by decide)
    have ht : retryableHTTPRequest attempts ctxDone =
        ⟨match (attempts 2).err with
          | some e => .cancelledAfter 3 e
          | none => .cancelledCtxErr, [1, 2], 3⟩ := by
      simp [retryableHTTPRequest, retryLoop, hr0, hr1, hr2, hb1, hb2, hdone, nextDelay,
        initialRetryDelay, maxRetryDelay, retryDelayMultiple]
    rw [ht]
    exact ⟨rfl, fun e he => by simp [he]⟩

/-- Witness for C4: a transport failure on attempt 0 followed by a
cancellation before retry 1 preempts the remaining retries and reports the
transport error. -/
theorem retryableHTTPRequest_cancellation_witness :
    (retryableHTTPRequest (fun _ => ⟨some "conn refused", none⟩)
      (fun i => decide (i = 1))).attemptsMade = 1 ∧
    (retryableHTTPRequest (fun _ => ⟨some "conn refused", none⟩)
      (fun i => decide (i = 1))).result = .cancelledAfter 1 "conn refused" := by
  have h := retryableHTTPRequest_cancellation (fun _ => ⟨some "conn refused", none⟩)
    (fun i => decide (i = 1)) 1 (by decide) (by decide)
    (fun i hi => by interval_cases i; rfl) (by decide) (fun i _ => rfl)
  exact ⟨h.1, h.2 "conn refused" rfl⟩

/-- Once the device code is no longer authorized, every further consume
CAS fails with invalid_grant and leaves the row untouched. -/
theorem runExchanges_all_fail (rest : List Int) (row : DeviceCodeRow)
    (h : row.status ≠ .authorized) :
    runExchanges row rest = (List.replicate rest.length .invalidGrant, row) := by
  induction rest with
  | nil => rfl
  | cons now rest ih =>
    have hc : consumeDeviceCode now row = (false, row) := by
      simp [consumeDeviceCode, h]
    simp [runExchanges, hc, ih, List.replicate_succ]

/-- C1: in any serialization of the atomic consume steps of N concurrent
exchange calls on one device code, at most one call succeeds; when the
code is authorized and unexpired at every call and N ≥ 1, exactly one
call obtains the token, every other call gets invalid_grant, and the row
ends consumed — the transition to consumed happens at most once. -/
theorem exchange_at_most_once :
    (∀ (nows : List Int) (row : DeviceCodeRow),
      ((runExchanges row nows).1.count .token) ≤ 1) ∧
    ∀ (nows : List Int) (row : DeviceCodeRow),
      row.status = .authorized → (∀ t ∈ nows, t < row.expiresAt) → nows ≠ [] →
      ((runExchanges row nows).1.count .token) = 1 ∧
      ((runExchanges row nows).1.count .invalidGrant) = nows.length - 1 ∧
      (runExchanges row nows).2.status = .consumed := by
  constructor
  · intro nows
    induction nows with
    | nil => intro row; simp [runExchanges]
    | cons now rest ih =>
      intro row
      by_cases h : row.status = .authorized ∧ now < row.expiresAt
      · have hc : consumeDeviceCode now row = (true, { row with status := .consumed }) := by
          simp [consumeDeviceCode, h]
        have hrest := runExchanges_all_fail rest { row with status := .consumed } (by simp)
        simp [runExchanges, hc, hrest, List.count_replicate]
      · have hc : consumeDeviceCode now row = (false, row) := by
          rw [consumeDeviceCode, if_neg h]
        simpa [runExchanges, hc] using ih row
  · intro nows row hs hexp hne
    cases nows with
    | nil => exact absurd rfl hne
    | cons now rest =>
      have hc : consumeDeviceCode now row = (true, { row with status := .consumed }) := by
        simp [consumeDeviceCode, hs, hexp now (List.mem_cons_self now rest)]
      have hrest := runExchanges_all_fail rest { row with status := .consumed } (by simp)
      simp [runExchanges, hc, hrest, List.count_replicate]

/-- Witness for C1: three racing exchanges on an authorized, unexpired
device code — one token, two invalid_grant, row consumed. -/
theorem exchange_at_most_once_witness :
    ((runExchanges ⟨.authorized, 100⟩ [1, 2, 3]).1.count .token) = 1 ∧
    ((runExchanges ⟨.authorized, 100⟩ [1, 2, 3]).1.count .invalidGrant) = 2 ∧
    (runExchanges ⟨.authorized, 100⟩ [1, 2, 3]).2.status = .consumed :=
  exchange_at_most_once.2 [1, 2, 3] ⟨.authorized, 100⟩ rfl (by decide) (by decide)

/-- C5: a revoke, disable or enable request whose caller does not own the
target token returns forbidden and leaves every token record unchanged;
the ownership check runs before any state change. -/
theorem session_mutation_requires_ownership (now : Int) (db : List AccessToken)
    (u tokenID : String) (hid : tokenID ≠ "")
    (hown : ∀ t ∈ db, t.id = tokenID → t.userID ≠ u) :
    RevokeSession now db (some u) tokenID = (.forbidden, db) ∧
    DisableSession db (some u) tokenID = (.forbidden, db) ∧
    EnableSession db (some u) tokenID = (.forbidden, db) := by
  have hany : (GetUserTokens db u).any (fun t => t.id == tokenID) = false := by
    rw [List.any_eq_false]
    intro t ht
    have hmem := List.mem_of_mem_filter ht
    have huid : t.userID = u := by
      have h2 := List.of_mem_filter ht
      simpa using h2
    simp only [beq_iff_eq]
    intro heq
    exact hown t hmem heq huid
  have hv : validateTokenOwnership db (some u) tokenID = .failed .forbidden := by
    simp [validateTokenOwnership, hid, hany]
  exact ⟨by simp [RevokeSession, hv], by simp [DisableSession, hv],
    by simp [EnableSession, hv]⟩

/-- Witness for C5: bob cannot revoke, disable or enable alice's token. -/
theorem session_mutation_requires_ownership_witness :
    RevokeSession 0 [⟨"tok1", "alice", none, false⟩] (some "bob") "tok1" =
      (.forbidden, [⟨"tok1", "alice", none, false⟩]) ∧
    DisableSession [⟨"tok1", "alice", none, false⟩] (some "bob") "tok1" =
      (.forbidden, [⟨"tok1", "alice", none, false⟩]) ∧
    EnableSession [⟨"tok1", "alice", none, false⟩] (some "bob") "tok1" =
      (.forbidden, [⟨"tok1", "alice", none, false⟩]) :=
  session_mutation_requires_ownership 0 [⟨"tok1", "alice", none, false⟩] "bob" "tok1"
    (by decide) (by decide)

/-- C6: for an authenticated session, a positive idle timeout strictly
exceeded by now − last_activity clears the session and redirects to login
with reason session_timeout; otherwise last_activity is set to the
current time and the request proceeds; a timeout of 0 disables the check
entirely. -/
theorem SessionIdleTimeout_spec (timeout now lastAct : Int) (u : String) :
    (0 < timeout → timeout < now - lastAct →
      SessionIdleTimeout timeout now ⟨some u, some lastAct⟩ =
        .redirectTimeout ⟨none, none⟩) ∧
    (0 < timeout → now - lastAct ≤ timeout →
      SessionIdleTimeout timeout now ⟨some u, some lastAct⟩ =
        .proceed ⟨some u, some now⟩) ∧
    SessionIdleTimeout 0 now ⟨some u, some lastAct⟩ = .proceed ⟨some u, some lastAct⟩ := by
  refine ⟨?_, ?_, ?_⟩
  · intro h1 h2
    simp [SessionIdleTimeout, show ¬timeout ≤ 0 from by omega, h2]
  · intro h1 h2
    simp [SessionIdleTimeout, show ¬timeout ≤ 0 from by omega,
      show ¬(timeout < now - lastAct) from by omega]
  · simp [SessionIdleTimeout]

/-- Witness for C6: a 30-second timeout evicts a session idle for 100
seconds and refreshes one idle for 10 seconds. -/
theorem SessionIdleTimeout_spec_witness :
    SessionIdleTimeout 30 100 ⟨some "user123", some 0⟩ = .redirectTimeout ⟨none, none⟩ ∧
    SessionIdleTimeout 30 100 ⟨some "user123", some 90⟩ =
      .proceed ⟨some "user123", some 100⟩ :=
  ⟨(SessionIdleTimeout_spec 30 100 0 "user123").1 (by decide) (by decide),
   (SessionIdleTimeout_spec 30 100 90 "user123").2.1 (by decide) (by decide)⟩

/-- A run of in-window requests from one ip whose counter holds `c`: the
j-th request is allowed exactly while `c + j + 1` stays within the budget,
and the counter ends at `c +` the number of requests. -/
theorem runRateLimiter_single_ip (budget : Nat) (ip : String) (t0 : Int)
    (ts : List Int) (c : Nat) (st : String → Option RateEntry)
    (hst : st ip = some ⟨c, t0⟩)
    (hts : ∀ t ∈ ts, t0 ≤ t ∧ t - t0 < rateWindowSeconds) :
    (runRateLimiter budget st (ts.map (fun t => (ip, t)))).1 =
      (List.range ts.length).map
        (fun j =>
          if budget < c + j + 1 then RateDecision.rejected 429 "rate_limit_exceeded"
          else .allowed) ∧
    (runRateLimiter budget st (ts.map (fun t => (ip, t)))).2 ip =
      some ⟨c + ts.length, t0⟩ := by
  induction ts generalizing c st with
  | nil => simpa [runRateLimiter] using hst
  | cons t rest ih =>
    obtain ⟨ht1, ht2⟩ := hts t (List.mem_cons_self t rest)
    have hstep : rateLimitStep budget t st ip =
        (if budget < c + 1 then .rejected 429 "rate_limit_exceeded" else .allowed,
         fun k => if k = ip then some ⟨c + 1, t0⟩ else st k) := by
      simp [rateLimitStep, hst, ht2]
    have ihr := ih (c + 1) (fun k => if k = ip then some ⟨c + 1, t0⟩ else st k)
      (by simp) (fun u hu => hts u (List.mem_cons_of_mem t hu))
    refine ⟨?_, ?_⟩
    · simp only [List.map_cons, runRateLimiter, hstep, ihr.1, List.length_cons]
      rw [List.range_succ_eq_map]
      simp only [List.map_cons, List.map_map]
      congr 1
      apply List.map_congr_left
      intro j hj
      simp only [Function.comp_apply, Nat.succ_eq_add_one]
      have harith : c + 1 + j + 1 = c + (j + 1) + 1 := by omega
      rw [harith]
    · simp only [List.map_cons, runRateLimiter, hstep, ihr.2, List.length_cons]
      have harith : c + 1 + rest.length = c + (rest.length + 1) := by omega
      rw [harith]

/-- C7: the limiter keeps per-IP counters fully independent — a request
from one IP never writes another IP's entry, and its decision depends
only on its own entry — and, within one window starting from a fresh
state, a single IP's requests are allowed exactly while its count is at
most the budget: the first N requests succeed and every further one is
rejected with HTTP 429 and error rate_limit_exceeded. -/
theorem rateLimiter_isolation_and_exact_budget :
    (∀ (budget : Nat) (now : Int) (st : String → Option RateEntry) (ip other : String),
      other ≠ ip → (rateLimitStep budget now st ip).2 other = st other) ∧
    (∀ (budget : Nat) (now : Int) (st st2 : String → Option RateEntry) (ip : String),
      st ip = st2 ip →
      (rateLimitStep budget now st ip).1 = (rateLimitStep budget now st2 ip).1) ∧
    (∀ (budget : Nat) (ip : String) (t0 : Int) (rest : List Int),
      (∀ t ∈ rest, t0 ≤ t ∧ t - t0 < rateWindowSeconds) →
      (runRateLimiter budget emptyRateState ((t0 :: rest).map (fun t => (ip, t)))).1 =
        (List.range (rest.length + 1)).map
          (fun j => if j < budget then .allowed
            else RateDecision.rejected 429 "rate_limit_exceeded")) := by
  refine ⟨?_, ?_, ?_⟩
  · intro budget now st ip other hne
    simp [rateLimitStep, hne]
  · intro budget now st st2 ip heq
    simp [rateLimitStep, heq]
  · intro budget ip t0 rest hrest
    have hstep : rateLimitStep budget t0 emptyRateState ip =
        (if budget < 1 then .rejected 429 "rate_limit_exceeded" else .allowed,
         fun k => if k = ip then some ⟨1, t0⟩ else emptyRateState k) := by
      simp [rateLimitStep, emptyRateState]
    have hrun := runRateLimiter_single_ip budget ip t0 rest 1
      (fun k => if k = ip then some ⟨1, t0⟩ else emptyRateState k) (by simp) hrest
    simp only [List.map_cons, runRateLimiter, hstep, hrun.1]
    rw [List.range_succ_eq_map]
    simp only [List.map_cons, List.map_map]
    congr 1
    · rcases Nat.eq_zero_or_pos budget with h | h
      · simp [h]
      · rw [if_neg (by omega), if_pos h]
    · apply List.map_congr_left
      intro j hj
      simp only [Function.comp_apply, Nat.succ_eq_add_one]
      by_cases h : j + 1 < budget
      · rw [if_neg (by omega), if_pos h]
      · rw [if_pos (by omega), if_neg h]

/-- Witness for C7: a request from one IP leaves another IP's counter
untouched, and with budget 2 three in-window requests from one IP yield
allowed, allowed, 429 rate_limit_exceeded. -/
theorem rateLimiter_isolation_witness :
    (rateLimitStep 5 0 emptyRateState "192.168.1.1").2 "192.168.1.2" =
      emptyRateState "192.168.1.2" ∧
    (runRateLimiter 2 emptyRateState
        [("192.168.1.1", (0 : Int)), ("192.168.1.1", 1), ("192.168.1.1", 2)]).1 =
      [.allowed, .allowed, .rejected 429 "rate_limit_exceeded"] := by
  have h1 := rateLimiter_isolation_and_exact_budget.1 5 0 emptyRateState
    "192.168.1.1" "192.168.1.2" (by decide)
  have h3 := rateLimiter_isolation_and_exact_budget.2.2 2 "192.168.1.1" 0 [1, 2]
    (by decide)
  refine ⟨h1, ?_⟩
  simpa using h3

/-- C8: the pagination constructor always yields page ≥ 1 and a page size
in [1, 50]; a page below 1 becomes 1, a page size below 1 becomes the
default 10, one above 50 is capped at 50, and in-range inputs pass
through unchanged. -/
theorem NewPaginationParams_bounds (page pageSize : Int) (search : String) :
    1 ≤ (NewPaginationParams page pageSize search).Page ∧
    1 ≤ (NewPaginationParams page pageSize search).PageSize ∧
    (NewPaginationParams page pageSize search).PageSize ≤ 50 ∧
    (page < 1 → (NewPaginationParams page pageSize search).Page = 1) ∧
    (1 ≤ page → (NewPaginationParams page pageSize search).Page = page) ∧
    (pageSize < 1 → (NewPaginationParams page pageSize search).PageSize = 10) ∧
    (50 < pageSize → (NewPaginationParams page pageSize search).PageSize = 50) ∧
    (1 ≤ pageSize → pageSize ≤ 50 →
      (NewPaginationParams page pageSize search).PageSize = pageSize) ∧
    (NewPaginationParams page pageSize search).Search = search := by
  simp only [NewPaginationParams, defaultPageSize, maxPageSize]
  refine ⟨?_, ?_, ?_, ?_, ?_, ?_, ?_, ?_, trivial⟩ <;> split_ifs <;> omega

/-- Witness for C8: page 0 becomes 1 and page size 100 is capped at 50. -/
theorem NewPaginationParams_bounds_witness :
    (NewPaginationParams 0 100 "").Page = 1 ∧
    (NewPaginationParams 0 100 "").PageSize = 50 :=
  ⟨(NewPaginationParams_bounds 0 100 "").2.2.2.1 (by norm_num),
   (NewPaginationParams_bounds 0 100 "").2.2.2.2.2.2.1 (by norm_num)⟩

/-- C9: under the configuration built by `config.Load` — whatever the
environment, since these fields are hard-wired — an issued device code is
persisted pending with expires_at = now + 30 minutes, and the issuance
response carries interval = 5 seconds. -/
theorem issueDeviceCode_defaults (parseDuration : String → Option Int)
    (env : String → String) (now : Int) :
    (issueDeviceCode (Load parseDuration env) now).1.status = .pending ∧
    (issueDeviceCode (Load parseDuration env) now).1.expiresAt = now + 30 * Minute ∧
    (issueDeviceCode (Load parseDuration env) now).2.interval = 5 := by
  refine ⟨rfl, rfl, rfl⟩

/-- C10: `getEnvBool` on a set (non-empty) variable returns true exactly
when the value is the string "true" or "1" — so "TRUE", "yes", "on" yield
false — and on an unset (empty) variable returns the supplied default. -/
theorem getEnvBool_spec (env : String → String) (key : String) (defaultValue : Bool) :
    (env key ≠ "" →
      (getEnvBool env key defaultValue = true ↔ env key = "true" ∨ env key = "1")) ∧
    (env key = "" → getEnvBool env key defaultValue = defaultValue) := by
  constructor
  · intro h
    simp [getEnvBool, h]
  · intro h
    simp [getEnvBool, h]

/-- Witness for C10: the value "TRUE" is not accepted as true. -/
theorem getEnvBool_spec_witness :
    getEnvBool (fun _ => "TRUE") "HTTP_API_INSECURE_SKIP_VERIFY" false = false := by
  have h := (getEnvBool_spec (fun _ => "TRUE") "HTTP_API_INSECURE_SKIP_VERIFY" false).1
    (by decide)
  have h2 : ¬(getEnvBool (fun _ => "TRUE") "HTTP_API_INSECURE_SKIP_VERIFY" false = true) := by
    intro hh
    rcases h.mp hh with h3 | h3 <;> exact absurd h3 (by decide)
  exact Bool.eq_false_iff.mpr h2

end AuthGate
